import Mathlib

/-!
Shallow embedding of the HireAI resume-parsing and job-matching pipeline.

The definitions below translate the TypeScript source of the repository:
  - app/api/resume-parser/job-match/route.ts   (job matcher)
  - app/api/resume-parser/upload/route.ts      (upload / extraction / parsing)
  - app/api/resume-parser/batch-analysis route (batch aggregator)
  - lib/resume-parser.ts                       (client-side file validation)

External generative-model calls and JSON.parse outcomes are modelled as
oracle arguments (Except values / functions from call index to outcome),
since the code treats the model as an opaque network dependency.  JavaScript
numbers appearing in score arithmetic are modelled as integers, and the
floating-point expression round(x) as exact rational rounding half-up.
-/

namespace HireAI

/-- JS Math.round on an exact rational: round half toward positive infinity. -/
def jsRound (q : ℚ) : Int := Int.floor (q + 1/2)

/-- JS expression `s || d` for an optional string: the default replaces a
missing value and also the empty string (which is falsy in JS). -/
def jsOrString (o : Option String) (d : String) : String :=
  match o with
  | some s => if s = "" then d else s
  | none => d

/-- JS expression `n || 0` for an optional number (a missing value yields 0;
the number 0 is falsy but the replacement is again 0). -/
def jsOrZero (o : Option Int) : Int := o.getD 0

/-- JS Array.prototype.sort with comparator (a, b) => key b - key a.
Array.prototype.sort is stable (ES2019), and a stable sort consistent with
that comparator is exactly insertion sort under the total preorder
`key b ≤ key a` (descending by key, ties keep original order). -/
def jsSortByDesc {α : Type} (key : α → Int) (l : List α) : List α :=
  l.insertionSort (fun a b => key b ≤ key a)

theorem perm_jsSortByDesc {α : Type} (key : α → Int) (l : List α) :
    List.Perm (jsSortByDesc key l) l :=
  List.perm_insertionSort _ l

theorem sorted_jsSortByDesc {α : Type} (key : α → Int) (l : List α) :
    (jsSortByDesc key l).Pairwise (fun a b => key b ≤ key a) := by
  haveI : IsTotal α (fun a b => key b ≤ key a) :=
    ⟨fun a b => Int.le_total (key b) (key a)⟩
  haveI : IsTrans α (fun a b => key b ≤ key a) :=
    ⟨fun _ _ _ hab hbc => le_trans hbc hab⟩
  exact List.sorted_insertionSort _ l

/-- Inserting an element never reorders the existing elements of any given
key value, and places the new element in front of every element of equal
key; this is the heart of the stability argument. -/
theorem filter_orderedInsert_key {α : Type} (key : α → Int) (s : Int) (a : α)
    (l : List α) :
    (List.orderedInsert (fun x y => key y ≤ key x) a l).filter
        (fun x => key x == s) =
      if key a = s then a :: l.filter (fun x => key x == s)
      else l.filter (fun x => key x == s) := by
  induction l with
  | nil =>
    by_cases h : key a = s
    · simp [List.orderedInsert, h]
    · simp [List.orderedInsert, h]
  | cons b t ih =>
    rw [List.orderedInsert]
    by_cases hr : key b ≤ key a
    · rw [if_pos hr]
      by_cases h : key a = s
      · simp [List.filter_cons, h]
      · simp [List.filter_cons, h]
    · rw [if_neg hr]
      by_cases h : key a = s
      · have hbs : ¬ (key b = s) := by omega
        rw [List.filter_cons, if_neg (by simp [hbs]), ih, if_pos h,
          if_pos h, List.filter_cons, if_neg (by simp [hbs])]
      · rw [List.filter_cons, ih, if_neg h, if_neg h, List.filter_cons]

/-- Stability of the embedded JS sort: for every key value, the sublist of
elements carrying that key is preserved verbatim (original order). -/
theorem filter_jsSortByDesc {α : Type} (key : α → Int) (s : Int) (l : List α) :
    (jsSortByDesc key l).filter (fun x => key x == s) =
      l.filter (fun x => key x == s) := by
  induction l with
  | nil => rfl
  | cons a t ih =>
    show (List.orderedInsert _ a (jsSortByDesc key t)).filter _ = _
    rw [filter_orderedInsert_key]
    by_cases h : key a = s
    · rw [if_pos h, ih, List.filter_cons, if_pos (by simp [h])]
    · rw [if_neg h, ih, List.filter_cons, if_neg (by simp [h])]

/-! JS object used as a counter map, as in `obj[k] = (obj[k] || 0) + 1`
followed by Object.entries(obj).  The object's property table records
properties in creation (insertion) order, modelled by countAll below;
Object.entries then enumerates per ECMAScript OwnPropertyKeys: array-index
keys (canonical numeric strings) first in ascending numeric order, then
the remaining string keys in creation order, modelled by jsObjectEntries. -/

/-- Keys of an entry list, in order. -/
def keysOf (m : List (String × Nat)) : List String := m.map (·.1)

theorem keysOf_nil : keysOf [] = [] := rfl

/-- One work-experience entry of a parsed resume. -/
structure ExperienceEntry where
  job_title : String
  company : String
  start_date : String
  end_date : String
  description : String
deriving DecidableEq, Repr

/-- One education entry of a parsed resume. -/
structure EducationEntry where
  institution : String
  degree : String
  field_of_study : String
  graduation_date : String
deriving DecidableEq, Repr

/-- Structured candidate record (interface ParsedResumeData); the two
optional URL fields are normalized to strings by the parser. -/
structure ParsedResumeData where
  name : String
  email : String
  phone : String
  linkedin_url : String
  github_url : String
  summary : String
  skills : List String
  experience : List ExperienceEntry
  education : List EducationEntry
deriving DecidableEq, Repr

/-! Job matcher (app/api/resume-parser/job-match/route.ts). -/

/-- Parsed JSON returned by the per-candidate model call: the breakdown
object and each numeric field may be missing (undefined in JS). -/
structure RawBreakdown where
  skillsMatch : Option Int
  experienceMatch : Option Int
  educationMatch : Option Int
  overallFit : Option Int
deriving DecidableEq, Repr

/-- Parsed JSON of one candidate analysis as the code reads it; a list
field is `none` when missing or not an array (the Array.isArray check). -/
structure RawAnalysis where
  score : Option Int
  matchBreakdown : Option RawBreakdown
  strengths : Option (List String)
  weaknesses : Option (List String)
  recommendation : Option String
deriving DecidableEq, Repr

/-- Expression Math.min(100, Math.max(0, x)) used on every score field. -/
def clamp (x : Int) : Int := min 100 (max 0 x)

/-- The four sub-scores of matchBreakdown after clamping. -/
structure MatchBreakdown where
  skillsMatch : Int
  experienceMatch : Int
  educationMatch : Int
  overallFit : Int
deriving DecidableEq, Repr

/-- CandidateScore without its rank field (Omit of CandidateScore in TS),
as returned by analyzeCandidateJobMatch. -/
structure ScoreNoRank where
  candidateId : String
  name : String
  email : String
  score : Int
  matchBreakdown : MatchBreakdown
  strengths : List String
  weaknesses : List String
  recommendation : String
deriving DecidableEq, Repr

/-- CandidateScore: the analysis fields (spread) plus the assigned rank. -/
structure CandidateScore where
  base : ScoreNoRank
  rank : Nat
deriving DecidableEq, Repr

/-- Function analyzeCandidateJobMatch: the model call and the subsequent
JSON extraction are the oracle argument; any throw inside the try block
lands in the catch branch, which substitutes the fixed default analysis. -/
def analyzeCandidateJobMatch (candidate : ParsedResumeData)
    (candidateId : String) (modelResponse : Except Unit RawAnalysis) :
    ScoreNoRank :=
  match modelResponse with
  | .ok analysis =>
    { candidateId := candidateId
      name := candidate.name
      email := candidate.email
      score := clamp (jsOrZero analysis.score)
      matchBreakdown :=
        { skillsMatch :=
            clamp (jsOrZero (analysis.matchBreakdown.bind (·.skillsMatch)))
          experienceMatch :=
            clamp (jsOrZero (analysis.matchBreakdown.bind (·.experienceMatch)))
          educationMatch :=
            clamp (jsOrZero (analysis.matchBreakdown.bind (·.educationMatch)))
          overallFit :=
            clamp (jsOrZero (analysis.matchBreakdown.bind (·.overallFit))) }
      strengths := analysis.strengths.getD []
      weaknesses := analysis.weaknesses.getD []
      recommendation := jsOrString analysis.recommendation "Analysis incomplete" }
  | .error _ =>
    { candidateId := candidateId
      name := candidate.name
      email := candidate.email
      score := 50
      matchBreakdown :=
        { skillsMatch := 50, experienceMatch := 50
          educationMatch := 50, overallFit := 50 }
      strengths := ["Unable to analyze"]
      weaknesses := ["Analysis failed"]
      recommendation := "Manual review recommended - automated analysis failed" }

/-- Pool-level insights object of a JobMatchResult. -/
structure MatchInsights where
  bestSkillMatches : List String
  commonGaps : List String
  recommendedActions : List String
deriving DecidableEq, Repr

/-- Parsed JSON of the pool-level insights call; a field is `none` when
missing or not an array. -/
structure RawInsights where
  bestSkillMatches : Option (List String)
  commonGaps : Option (List String)
  recommendedActions : Option (List String)
deriving DecidableEq, Repr

/-- Function generateJobMatchInsights: the model call plus JSON extraction
is the oracle; the catch branch substitutes the fixed degraded default. -/
def generateJobMatchInsights (modelResponse : Except Unit RawInsights) :
    MatchInsights :=
  match modelResponse with
  | .ok insights =>
    { bestSkillMatches := insights.bestSkillMatches.getD []
      commonGaps := insights.commonGaps.getD []
      recommendedActions := insights.recommendedActions.getD [] }
  | .error _ =>
    { bestSkillMatches := []
      commonGaps := []
      recommendedActions := ["Manual review recommended"] }

/-- Rank assignment, .map((candidate, index) => ({ ...candidate,
rank: index + 1 })), written with the running rank i = index + 1. -/
def assignRanksFrom (i : Nat) : List ScoreNoRank → List CandidateScore
  | [] => []
  | c :: t => ⟨c, i⟩ :: assignRanksFrom (i + 1) t

/-- Sort by descending score and assign 1-based ranks (lines 277-282). -/
def rankCandidates (analyses : List ScoreNoRank) : List CandidateScore :=
  assignRanksFrom 1 (jsSortByDesc (fun c => c.score) analyses)

/-- Result object of the job-match endpoint. -/
structure JobMatchResult where
  jobTitle : String
  totalCandidates : Nat
  averageScore : Int
  topCandidates : List CandidateScore
  leaderboard : List CandidateScore
  matchInsights : MatchInsights
deriving DecidableEq, Repr

/-- One element of the candidates array of the request body. -/
structure CandidateInput where
  id : String
  extractedData : ParsedResumeData
deriving DecidableEq, Repr

/-- Request body of the job-match endpoint; `none` models a field that is
missing or of the wrong runtime type (not an array / not a string). -/
structure JobMatchRequest where
  candidates : Option (List CandidateInput)
  jobDescription : Option String
  jobTitle : Option String
deriving DecidableEq, Repr

/-- HTTP-level outcome of the job-match endpoint. -/
inductive JobMatchResponse where
  | error (status : Nat) (msg : String)
  | ok (result : JobMatchResult)
deriving DecidableEq, Repr

/-- Fan-out candidates.map(... analyzeCandidateJobMatch ...): the oracle
maps the position of a candidate in the array to its model outcome. -/
def analyzeAll : List CandidateInput → (Nat → Except Unit RawAnalysis) →
    Nat → List ScoreNoRank
  | [], _, _ => []
  | c :: t, resp, i =>
    analyzeCandidateJobMatch c.extractedData c.id (resp i) ::
      analyzeAll t resp (i + 1)

/-- Sum of the overall scores of a ranked list (the reduce over scores). -/
def sumScores (l : List CandidateScore) : Int :=
  (l.map (fun c => c.base.score)).sum

/-- POST handler of the job-match endpoint.  The returned Nat counts the
external model calls issued (one per candidate plus one insights call);
validation failures return before any call is issued. -/
def jobMatchPOST (req : JobMatchRequest)
    (candidateResp : Nat → Except Unit RawAnalysis)
    (insightsResp : Except Unit RawInsights) : JobMatchResponse × Nat :=
  match req.candidates with
  | none => (.error 400 "No candidates provided", 0)
  | some cands =>
    if cands.length = 0 then (.error 400 "No candidates provided", 0)
    else
      match req.jobDescription with
      | none => (.error 400 "Job description is required", 0)
      | some jd =>
        if jd = "" then (.error 400 "Job description is required", 0)
        else
          let candidateAnalyses := analyzeAll cands candidateResp 0
          let rankedCandidates := rankCandidates candidateAnalyses
          let averageScore :=
            jsRound ((sumScores rankedCandidates : ℚ) / rankedCandidates.length)
          let topCandidates := rankedCandidates.take 5
          let matchInsights := generateJobMatchInsights insightsResp
          (.ok
            { jobTitle := jsOrString req.jobTitle "Position Analysis"
              totalCandidates := cands.length
              averageScore := averageScore
              topCandidates := topCandidates
              leaderboard := rankedCandidates
              matchInsights := matchInsights },
            cands.length + 1)

/-- Whether a response is the success shape (NextResponse.json with
success true) rather than an error object. -/
def isOkResponse : JobMatchResponse → Bool
  | .ok _ => true
  | .error _ _ => false

/-- Leaderboard of a successful response. -/
def leaderboardOf : JobMatchResponse → Option (List CandidateScore)
  | .ok r => some r.leaderboard
  | .error _ _ => none

/-- Average score of a successful response. -/
def averageScoreOf : JobMatchResponse → Option Int
  | .ok r => some r.averageScore
  | .error _ _ => none

/-- Insights of a successful response. -/
def insightsOf : JobMatchResponse → Option MatchInsights
  | .ok r => some r.matchInsights
  | .error _ _ => none

/-! Structured parser (parseResumeWithGemini in upload/route.ts). -/

/-- Runtime shape of one field the model may return where the code expects
an array: missing (undefined), present but not an array, or an array. -/
inductive RawArr (α : Type) where
  | absent
  | notArray
  | arr (l : List α)
deriving DecidableEq, Repr

/-- The Array.isArray(x) ? x : [] coercion. -/
def coerceArr {α : Type} : RawArr α → List α
  | .arr l => l
  | _ => []

/-- Parsed JSON object of the structured-parser model call, before the
defensive normalization; string fields may be missing. -/
structure RawParsed where
  name : Option String
  email : Option String
  phone : Option String
  linkedin_url : Option String
  github_url : Option String
  summary : Option String
  skills : RawArr String
  experience : RawArr ExperienceEntry
  education : RawArr EducationEntry
deriving DecidableEq, Repr

/-- Post-parse normalization block (lines 212-223 of upload/route.ts). -/
def normalizeParsed (p : RawParsed) : ParsedResumeData :=
  { name := jsOrString p.name ""
    email := jsOrString p.email ""
    phone := jsOrString p.phone ""
    linkedin_url := jsOrString p.linkedin_url ""
    github_url := jsOrString p.github_url ""
    summary := jsOrString p.summary ""
    skills := coerceArr p.skills
    experience := coerceArr p.experience
    education := coerceArr p.education }

/-- Function parseResumeWithGemini: the model call, fence stripping and
JSON.parse are the oracle; a throw anywhere in the try block reaches the
catch, which rethrows the fixed ParseError message. -/
def parseResumeWithGemini (modelJson : Except Unit RawParsed) :
    Except String ParsedResumeData :=
  match modelJson with
  | .ok parsedData => .ok (normalizeParsed parsedData)
  | .error _ => .error "Failed to parse AI response into structured data"

/-! Text extraction (upload/route.ts). -/

/-- JS String.prototype.toLowerCase, modelled per character over the
character sequence (exact for the ASCII names the code compares against). -/
def strToLower (s : String) : String := ⟨s.data.map Char.toLower⟩

/-- JS String.prototype.trim: remove leading and trailing whitespace,
modelled on the character sequence. -/
def strTrim (s : String) : String :=
  ⟨((s.data.dropWhile Char.isWhitespace).reverse.dropWhile
      Char.isWhitespace).reverse⟩

/-- JS String.prototype.lastIndexOf for a single character, as an index
into the code-unit sequence (-1 when absent). -/
def jsLastIndexOf (c : Char) (l : List Char) : Int :=
  match (l.reverse).findIdx? (fun x => x = c) with
  | some i => (l.length : Int) - 1 - i
  | none => -1

/-- JS String.prototype.substring(start) with a possibly negative start
(negative values clamp to 0). -/
def jsSubstringFrom (l : List Char) (i : Int) : List Char :=
  l.drop i.toNat

/-- Node path.extname restricted to plain file names: the suffix starting
at the last dot, or the empty string when there is no dot or the name
starts with its only dot. -/
def jsExtname (name : String) : String :=
  let i := jsLastIndexOf '.' name.data
  if i ≤ 0 then "" else ⟨name.data.drop i.toNat⟩

/-- Function extractTextWithGeminiOCR: the oracle is the model outcome
(ok text, or error with the thrown message); an empty or whitespace-only
text throws inside the try, and the catch wraps every message with the
fixed OCR-failure description. -/
def extractTextWithGeminiOCR (ocr : Except String String) :
    Except String String :=
  match ocr with
  | .ok text =>
    if strTrim text = "" then
      .error ("Failed to extract text using OCR: " ++
        "No text could be extracted from the file using OCR")
    else .ok (strTrim text)
  | .error e => .error ("Failed to extract text using OCR: " ++ e)

/-- Extensions routed straight to OCR (all PDFs and images). -/
def ocrExtensions : List String :=
  [".pdf", ".jpg", ".jpeg", ".png", ".gif", ".bmp", ".webp"]

/-- Function extractTextFromFile: dispatch on the lowercased extension;
DOCX first tries the local mammoth library (second oracle) and falls back
to OCR on its failure; unsupported extensions throw without any call. -/
def extractTextFromFile (originalName : String)
    (ocr : Except String String) (mammothResult : Except Unit String) :
    Except String String :=
  let extension := strToLower (jsExtname originalName)
  if ocrExtensions.contains extension then
    extractTextWithGeminiOCR ocr
  else if extension = ".docx" then
    match mammothResult with
    | .ok value => .ok value
    | .error _ => extractTextWithGeminiOCR ocr
  else if extension = ".doc" then
    extractTextWithGeminiOCR ocr
  else
    .error ("Unsupported file format: " ++ extension)

/-- Function processResumeFile.  The file system is the list of temp-file
paths currently on disk; the finally block unlinks the file on every path
through the body, success or failure. -/
def processResumeFile (filePath : String) (originalName : String)
    (ocr : Except String String) (mammothResult : Except Unit String)
    (parseJson : Except Unit RawParsed) (fileSys : List String) :
    Except String ParsedResumeData × List String :=
  let res : Except String ParsedResumeData :=
    match extractTextFromFile originalName ocr mammothResult with
    | .error e => .error e
    | .ok extractedText =>
      if strTrim extractedText = "" then
        .error "No text could be extracted from the file"
      else parseResumeWithGemini parseJson
  (res, fileSys.erase filePath)

/-- Status field of a ProcessingResult. -/
inductive PStatus where
  | processing
  | completed
  | failed
deriving DecidableEq, Repr

/-- Per-file pipeline state record (interface ProcessingResult). -/
structure ProcessingResult where
  id : String
  fileName : String
  status : PStatus
  uploadTime : String
  extractedData : Option ParsedResumeData
  error : Option String
  progress : Option Nat
deriving DecidableEq, Repr

/-- External outcomes affecting the processing of one uploaded file. -/
structure FileOracle where
  ocr : Except String String
  mammoth : Except Unit String
  parsed : Except Unit RawParsed
deriving Repr

/-- Body of the per-file loop of the upload POST handler: write the temp
file, process it, and build the ProcessingResult, catching any throw into
a failed result (progress stays at 25 on failure, 100 on success). -/
def processUploadedFile (fileId : String) (fileName : String)
    (o : FileOracle) (fileSys : List String) :
    ProcessingResult × List String :=
  let tempFilePath := fileId ++ "-" ++ fileName
  let fileSys1 := tempFilePath :: fileSys
  let step := processResumeFile tempFilePath fileName o.ocr o.mammoth
    o.parsed fileSys1
  let result : ProcessingResult :=
    match step.1 with
    | .ok extractedData =>
      { id := fileId, fileName := fileName, status := .completed
        uploadTime := "just now", extractedData := some extractedData
        error := none, progress := some 100 }
    | .error e =>
      { id := fileId, fileName := fileName, status := .failed
        uploadTime := "just now", extractedData := none
        error := some e, progress := some 25 }
  (result, step.2)

/-- HTTP-level outcome of the upload endpoint. -/
inductive UploadResponse where
  | error (status : Nat) (msg : String)
  | ok (results : List ProcessingResult) (message : String)
deriving DecidableEq, Repr

/-- Sequential loop over the uploaded files, threading the file system. -/
def uploadLoop : List (String × String × FileOracle) → List String →
    List ProcessingResult × List String
  | [], fileSys => ([], fileSys)
  | (fid, fname, o) :: rest, fileSys =>
    let step := processUploadedFile fid fname o fileSys
    let tail := uploadLoop rest step.2
    (step.1 :: tail.1, tail.2)

/-- POST handler of the upload endpoint: rejects an empty file list with a
400, otherwise processes every file and always answers success true. -/
def uploadPOST (files : List (String × String × FileOracle))
    (fileSys : List String) : UploadResponse × List String :=
  if files.length = 0 then (.error 400 "No files uploaded", fileSys)
  else
    let step := uploadLoop files fileSys
    (.ok step.1 ("Processed " ++ toString step.1.length ++ " resume(s)"),
      step.2)

/-- Whether an upload response is the success shape. -/
def isOkUpload : UploadResponse → Bool
  | .ok _ _ => true
  | .error _ _ => false

/-! File validation (validateResumeFile in lib/resume-parser.ts). -/

/-- MIME types accepted by the advisory check. -/
def allowedTypes : List String :=
  ["application/pdf",
   "application/vnd.openxmlformats-officedocument.wordprocessingml.document",
   "application/msword",
   "image/jpeg", "image/jpg", "image/png", "image/gif", "image/bmp",
   "image/webp"]

/-- File extensions accepted by the validator. -/
def allowedExtensions : List String :=
  [".pdf", ".doc", ".docx", ".jpg", ".jpeg", ".png", ".gif", ".bmp",
   ".webp"]

/-- Browser File value as the validator sees it: name, byte size and the
declared MIME type (file.type, possibly empty). -/
structure JsFile where
  name : String
  size : Nat
  type : String
deriving DecidableEq, Repr

/-- Return shape of validateResumeFile. -/
structure ValidationResult where
  valid : Bool
  error : Option String
deriving DecidableEq, Repr

/-- Expression file.name.toLowerCase().substring(file.name.lastIndexOf(
dot)): the index is computed on the original name and applied to the
lowercased name (same positions, lowercasing is per character). -/
def fileExtensionOf (name : String) : String :=
  ⟨jsSubstringFrom (name.data.map Char.toLower)
    (jsLastIndexOf '.' name.data)⟩

/-- Function validateResumeFile (lines 195-228 of lib/resume-parser.ts). -/
def validateResumeFile (file : JsFile) : ValidationResult :=
  let maxSize : Nat := 10 * 1024 * 1024
  if file.size > maxSize then
    { valid := false, error := some "File size must be less than 10MB" }
  else if allowedExtensions.contains (fileExtensionOf file.name) = false then
    { valid := false
      error := some
        "Only PDF, DOC, DOCX, and image files (JPG, PNG, GIF, BMP, WebP) are supported" }
  else if allowedTypes.contains file.type = false ∧ file.type ≠ "" then
    { valid := false, error := some "Invalid file type" }
  else
    { valid := true, error := none }

/-! Batch aggregator (analyzeBatchResumes in the batch-analysis route). -/

theorem map_base_assignRanksFrom (i : Nat) (l : List ScoreNoRank) :
    (assignRanksFrom i l).map (fun c => c.base) = l := by
  induction l generalizing i with
  | nil => rfl
  | cons c t ih => simp [assignRanksFrom, ih]

theorem base_mem_of_mem_assignRanksFrom {x : CandidateScore} (i : Nat)
    (l : List ScoreNoRank) (h : x ∈ assignRanksFrom i l) : x.base ∈ l := by
  have h2 := List.mem_map_of_mem (fun c => c.base) h
  rwa [map_base_assignRanksFrom] at h2

theorem map_rank_assignRanksFrom (i : Nat) (l : List ScoreNoRank) :
    (assignRanksFrom i l).map (fun c => c.rank) = List.range' i l.length := by
  induction l generalizing i with
  | nil => rfl
  | cons c t ih => simp [assignRanksFrom, List.range', ih]

theorem pairwise_assignRanksFrom (P : ScoreNoRank → ScoreNoRank → Prop)
    (i : Nat) (l : List ScoreNoRank) (h : l.Pairwise P) :
    (assignRanksFrom i l).Pairwise (fun x y => P x.base y.base) := by
  induction l generalizing i with
  | nil => exact List.Pairwise.nil
  | cons c t ih =>
    obtain ⟨h1, h2⟩ := List.pairwise_cons.mp h
    refine List.pairwise_cons.mpr ⟨?_, ih (i + 1) h2⟩
    intro y hy
    exact h1 y.base (base_mem_of_mem_assignRanksFrom _ _ hy)

theorem mem_analyzeAll {x : ScoreNoRank} :
    ∀ (cands : List CandidateInput) (f : Nat → Except Unit RawAnalysis)
      (i : Nat), x ∈ analyzeAll cands f i →
      ∃ c j, c ∈ cands ∧
        x = analyzeCandidateJobMatch c.extractedData c.id (f j) := by
  intro cands
  induction cands with
  | nil => intro f i h; cases h
  | cons c t ih =>
    intro f i h
    rcases List.mem_cons.mp h with h | h
    · exact ⟨c, i, List.mem_cons_self .., h⟩
    · obtain ⟨c2, j, hc2, hx⟩ := ih f (i + 1) h
      exact ⟨c2, j, List.mem_cons_of_mem _ hc2, hx⟩

/-- Shape of the job-match response on a structurally valid request. -/
theorem jobMatchPOST_ok (cands : List CandidateInput) (jd : String)
    (jt : Option String) (f : Nat → Except Unit RawAnalysis)
    (g : Except Unit RawInsights) (h1 : cands ≠ []) (h2 : jd ≠ "") :
    jobMatchPOST ⟨some cands, some jd, jt⟩ f g =
      (.ok
        { jobTitle := jsOrString jt "Position Analysis"
          totalCandidates := cands.length
          averageScore :=
            jsRound ((sumScores (rankCandidates (analyzeAll cands f 0)) : ℚ) /
              ((rankCandidates (analyzeAll cands f 0)).length : ℚ))
          topCandidates := (rankCandidates (analyzeAll cands f 0)).take 5
          leaderboard := rankCandidates (analyzeAll cands f 0)
          matchInsights := generateJobMatchInsights g },
        cands.length + 1) := by
  have hl : ¬ (cands.length = 0) := by
    simpa [List.length_eq_zero] using h1
  show (if cands.length = 0 then _ else _) = _
  rw [if_neg hl]
  show (if jd = "" then _ else _) = _
  rw [if_neg h2]

/-! Shared concrete inputs for examples and witnesses. -/

/-- A fixed structured resume used in concrete scenarios. -/
def sampleResume : ParsedResumeData :=
  { name := "Ada", email := "ada@example.com", phone := ""
    linkedin_url := "", github_url := "", summary := ""
    skills := [], experience := [], education := [] }

/-- A bare per-candidate analysis with a given id and overall score. -/
def mkPre (id : String) (sc : Int) : ScoreNoRank :=
  { candidateId := id, name := id, email := "", score := sc
    matchBreakdown :=
      { skillsMatch := 0, experienceMatch := 0, educationMatch := 0
        overallFit := 0 }
    strengths := [], weaknesses := [], recommendation := "" }

/-- A parsed model analysis with every field missing. -/
def rawNone : RawAnalysis :=
  { score := none, matchBreakdown := none, strengths := none
    weaknesses := none, recommendation := none }

/-- All five score fields of a candidate analysis lie in 0..100. -/
def scoreFieldsInRange (s : ScoreNoRank) : Prop :=
  0 ≤ s.score ∧ s.score ≤ 100 ∧
  0 ≤ s.matchBreakdown.skillsMatch ∧ s.matchBreakdown.skillsMatch ≤ 100 ∧
  0 ≤ s.matchBreakdown.experienceMatch ∧
  s.matchBreakdown.experienceMatch ≤ 100 ∧
  0 ≤ s.matchBreakdown.educationMatch ∧
  s.matchBreakdown.educationMatch ≤ 100 ∧
  0 ≤ s.matchBreakdown.overallFit ∧ s.matchBreakdown.overallFit ≤ 100

theorem clamp_range (x : Int) : 0 ≤ clamp x ∧ clamp x ≤ 100 := by
  unfold clamp; omega

/-- C1: every CandidateScore produced by the job matcher has its overall
score and its four matchBreakdown sub-scores in 0..100 inclusive, whatever
the external model returned (out-of-range, missing, or a failed call), both
at the level of analyzeCandidateJobMatch and for every leaderboard entry of
a successful job-match response. -/
theorem claim1_score_fields_in_range :
    (∀ (candidate : ParsedResumeData) (candidateId : String)
        (modelResponse : Except Unit RawAnalysis),
      scoreFieldsInRange
        (analyzeCandidateJobMatch candidate candidateId modelResponse)) ∧
    (∀ (req : JobMatchRequest) (f : Nat → Except Unit RawAnalysis)
        (g : Except Unit RawInsights) (l : List CandidateScore)
        (cs : CandidateScore),
      leaderboardOf (jobMatchPOST req f g).1 = some l → cs ∈ l →
      scoreFieldsInRange cs.base) := by
  have hbase : ∀ (candidate : ParsedResumeData) (candidateId : String)
      (modelResponse : Except Unit RawAnalysis),
      scoreFieldsInRange
        (analyzeCandidateJobMatch candidate candidateId modelResponse) := by
    intro candidate candidateId modelResponse
    cases modelResponse with
    | ok a =>
      exact ⟨(clamp_range _).1, (clamp_range _).2, (clamp_range _).1,
        (clamp_range _).2, (clamp_range _).1, (clamp_range _).2,
        (clamp_range _).1, (clamp_range _).2, (clamp_range _).1,
        (clamp_range _).2⟩
    | error e =>
      refine ⟨?_, ?_, ?_, ?_, ?_, ?_, ?_, ?_, ?_, ?_⟩ <;>
        simp [analyzeCandidateJobMatch]
  refine ⟨hbase, ?_⟩
  intro req f g l cs hl hcs
  obtain ⟨oc, ojd, jt⟩ := req
  cases oc with
  | none => simp [jobMatchPOST, leaderboardOf] at hl
  | some cands =>
    by_cases hce : cands.length = 0
    · simp [jobMatchPOST, hce, leaderboardOf] at hl
    · cases ojd with
      | none => simp [jobMatchPOST, hce, leaderboardOf] at hl
      | some jd =>
        by_cases hjd : jd = ""
        · simp [jobMatchPOST, hce, hjd, leaderboardOf] at hl
        · rw [jobMatchPOST_ok cands jd jt f g
            (by simpa [← List.length_eq_zero] using hce) hjd] at hl
          simp only [leaderboardOf, Option.some.injEq] at hl
          subst hl
          have hb := base_mem_of_mem_assignRanksFrom 1 _ hcs
          have hmem : cs.base ∈ analyzeAll cands f 0 :=
            (perm_jsSortByDesc (fun c => c.score) (analyzeAll cands f 0)).mem_iff.mp hb
          obtain ⟨c, j, _, hx⟩ := mem_analyzeAll cands f 0 hmem
          rw [hx]
          exact hbase c.extractedData c.id (f j)

/-- C1 witness: concrete instantiation of both parts. -/
theorem claim1_witness :
    scoreFieldsInRange
      (analyzeCandidateJobMatch sampleResume "c1" (.error ())) ∧
    scoreFieldsInRange
      (⟨analyzeCandidateJobMatch sampleResume "c1" (.error ()), 1⟩ :
        CandidateScore).base :=
  ⟨claim1_score_fields_in_range.1 sampleResume "c1" (.error ()),
   claim1_score_fields_in_range.2
     ⟨some [⟨"c1", sampleResume⟩], some "Engineer", none⟩
     (fun _ => .error ()) (.error ())
     (rankCandidates (analyzeAll [⟨"c1", sampleResume⟩]
       (fun _ => .error ()) 0))
     ⟨analyzeCandidateJobMatch sampleResume "c1" (.error ()), 1⟩
     rfl (by simp [rankCandidates, analyzeAll, jsSortByDesc,
       List.insertionSort, assignRanksFrom])⟩

/-- C2: the leaderboard is the per-candidate analyses sorted descending by
overall score, ranks are exactly 1..n in sorted position, ties keep their
original relative order (stable), the leaderboard of every successful
response is exactly this ranking, and on scores 90, 70, 90, 50 the two 90s
keep their input order at ranks 1 and 2. -/
theorem claim2_leaderboard_ranking :
    (∀ analyses : List ScoreNoRank,
      List.Perm ((rankCandidates analyses).map (fun c => c.base)) analyses) ∧
    (∀ analyses : List ScoreNoRank,
      (rankCandidates analyses).Pairwise
        (fun a b => b.base.score ≤ a.base.score)) ∧
    (∀ analyses : List ScoreNoRank,
      (rankCandidates analyses).map (fun c => c.rank) =
        List.range' 1 analyses.length) ∧
    (∀ (analyses : List ScoreNoRank) (s : Int),
      ((rankCandidates analyses).map (fun c => c.base)).filter
          (fun c => c.score == s) =
        analyses.filter (fun c => c.score == s)) ∧
    (∀ (cands : List CandidateInput) (jd : String) (jt : Option String)
        (f : Nat → Except Unit RawAnalysis) (g : Except Unit RawInsights)
        (l : List CandidateScore),
      leaderboardOf (jobMatchPOST ⟨some cands, some jd, jt⟩ f g).1 = some l →
      l = rankCandidates (analyzeAll cands f 0)) ∧
    rankCandidates
        [mkPre "A" 90, mkPre "B" 70, mkPre "C" 90, mkPre "D" 50] =
      [⟨mkPre "A" 90, 1⟩, ⟨mkPre "C" 90, 2⟩, ⟨mkPre "B" 70, 3⟩,
       ⟨mkPre "D" 50, 4⟩] := by
  refine ⟨?_, ?_, ?_, ?_, ?_, ?_⟩
  · intro analyses
    rw [rankCandidates, map_base_assignRanksFrom]
    exact perm_jsSortByDesc _ _
  · intro analyses
    exact pairwise_assignRanksFrom _ 1 _
      (sorted_jsSortByDesc (fun c => c.score) analyses)
  · intro analyses
    rw [rankCandidates, map_rank_assignRanksFrom,
      (perm_jsSortByDesc (fun c => c.score) analyses).length_eq]
  · intro analyses s
    rw [rankCandidates, map_base_assignRanksFrom]
    exact filter_jsSortByDesc (fun c => c.score) s analyses
  · intro cands jd jt f g l hl
    by_cases hce : cands.length = 0
    · simp [jobMatchPOST, hce, leaderboardOf] at hl
    · by_cases hjd : jd = ""
      · simp [jobMatchPOST, hce, hjd, leaderboardOf] at hl
      · rw [jobMatchPOST_ok cands jd jt f g
          (by simpa [← List.length_eq_zero] using hce) hjd] at hl
        simpa [leaderboardOf, eq_comm] using hl
  · decide

/-- C2 witness: the POST conjunct instantiated on a concrete request. -/
theorem claim2_witness :
    rankCandidates (analyzeAll [⟨"c1", sampleResume⟩]
        (fun _ => .error ()) 0) =
      rankCandidates (analyzeAll [⟨"c1", sampleResume⟩]
        (fun _ => .error ()) 0) :=
  claim2_leaderboard_ranking.2.2.2.2.1
    [⟨"c1", sampleResume⟩] "Engineer" none (fun _ => .error ()) (.error ())
    (rankCandidates (analyzeAll [⟨"c1", sampleResume⟩]
      (fun _ => .error ()) 0)) rfl

/-- C3 counterexample: a request whose job description is the whitespace
string consisting of a single space passes validation (the check is only
for a falsy or non-string value), so the endpoint answers success and
issues 2 external calls (one candidate plus insights), not a 400 with zero
calls as the claim states for whitespace-only descriptions. -/
theorem claim3_counterexample :
    isOkResponse
      (jobMatchPOST
        { candidates := some [⟨"c1", sampleResume⟩]
          jobDescription := some " ", jobTitle := none }
        (fun _ => .error ()) (.error ())).1 = true ∧
    (jobMatchPOST
      { candidates := some [⟨"c1", sampleResume⟩]
        jobDescription := some " ", jobTitle := none }
      (fun _ => .error ()) (.error ())).2 = 2 := by
  constructor <;> rfl

/-- C3 (amended): the endpoint fails fast, answering a 400 error with zero
external calls, when the job description is the empty string, missing, or
not a string, or when the candidates field is missing, not an array, or
empty; a whitespace-only non-empty job description is not rejected. -/
theorem claim3_fail_fast (req : JobMatchRequest)
    (f : Nat → Except Unit RawAnalysis) (g : Except Unit RawInsights)
    (h : req.candidates = none ∨ req.candidates = some [] ∨
      req.jobDescription = none ∨ req.jobDescription = some "") :
    (jobMatchPOST req f g).2 = 0 ∧
    ∃ msg, (jobMatchPOST req f g).1 = .error 400 msg := by
  obtain ⟨oc, ojd, jt⟩ := req
  rcases h with h | h | h | h
  · simp only [] at h
    subst h
    exact ⟨rfl, "No candidates provided", rfl⟩
  · simp only [] at h
    subst h
    exact ⟨rfl, "No candidates provided", rfl⟩
  · simp only [] at h
    subst h
    cases oc with
    | none => exact ⟨rfl, "No candidates provided", rfl⟩
    | some cands =>
      by_cases hce : cands.length = 0
      · refine ⟨?_, "No candidates provided", ?_⟩ <;>
          simp [jobMatchPOST, hce]
      · refine ⟨?_, "Job description is required", ?_⟩ <;>
          simp [jobMatchPOST, hce]
  · simp only [] at h
    subst h
    cases oc with
    | none => exact ⟨rfl, "No candidates provided", rfl⟩
    | some cands =>
      by_cases hce : cands.length = 0
      · refine ⟨?_, "No candidates provided", ?_⟩ <;>
          simp [jobMatchPOST, hce]
      · refine ⟨?_, "Job description is required", ?_⟩ <;>
          simp [jobMatchPOST, hce]

/-- C3 witness: the empty job description on a one-candidate request. -/
theorem claim3_witness :
    (jobMatchPOST
      { candidates := some [⟨"c1", sampleResume⟩]
        jobDescription := some "", jobTitle := none }
      (fun _ => .error ()) (.error ())).2 = 0 ∧
    ∃ msg,
      (jobMatchPOST
        { candidates := some [⟨"c1", sampleResume⟩]
          jobDescription := some "", jobTitle := none }
        (fun _ => .error ()) (.error ())).1 = .error 400 msg :=
  claim3_fail_fast _ _ _ (Or.inr (Or.inr (Or.inr rfl)))

/-- C4: a failed per-candidate model call or JSON parse still yields a
CandidateScore with overall score 50, all four sub-scores 50, the fixed
sentinel strengths and weaknesses, and the manual-review recommendation;
the analyses of all other candidates depend only on their own call
outcomes, and the batch response is still a success. -/
theorem claim4_per_candidate_failure_isolation :
    (∀ (candidate : ParsedResumeData) (candidateId : String),
      analyzeCandidateJobMatch candidate candidateId (.error ()) =
        { candidateId := candidateId
          name := candidate.name
          email := candidate.email
          score := 50
          matchBreakdown :=
            { skillsMatch := 50, experienceMatch := 50
              educationMatch := 50, overallFit := 50 }
          strengths := ["Unable to analyze"]
          weaknesses := ["Analysis failed"]
          recommendation :=
            "Manual review recommended - automated analysis failed" }) ∧
    (∀ (cands : List CandidateInput)
        (f g : Nat → Except Unit RawAnalysis) (i0 : Nat),
      (∀ j, j ≠ i0 → f j = g j) →
      ∀ k, k ≠ i0 → (analyzeAll cands f 0)[k]? = (analyzeAll cands g 0)[k]?) ∧
    (∀ (cands : List CandidateInput) (jd : String) (jt : Option String)
        (f : Nat → Except Unit RawAnalysis) (g : Except Unit RawInsights),
      cands ≠ [] → jd ≠ "" →
      isOkResponse
        (jobMatchPOST ⟨some cands, some jd, jt⟩ f g).1 = true) := by
  have hgen : ∀ (cands : List CandidateInput)
      (f g : Nat → Except Unit RawAnalysis) (i0 : Nat),
      (∀ j, j ≠ i0 → f j = g j) →
      ∀ (n k : Nat), n + k ≠ i0 →
        (analyzeAll cands f n)[k]? = (analyzeAll cands g n)[k]? := by
    intro cands f g i0 hfg
    induction cands with
    | nil => intro n k _; rfl
    | cons c t ih =>
      intro n k hnk
      cases k with
      | zero =>
        simp only [analyzeAll, List.getElem?_cons_zero]
        rw [hfg n (by omega)]
      | succ k2 =>
        simp only [analyzeAll, List.getElem?_cons_succ]
        exact ih (n + 1) k2 (by omega)
  refine ⟨fun _ _ => rfl, ?_, ?_⟩
  · intro cands f g i0 hfg k hk
    exact hgen cands f g i0 hfg 0 k (by omega)
  · intro cands jd jt f g h1 h2
    rw [jobMatchPOST_ok cands jd jt f g h1 h2]
    rfl

/-- C4 witness: two candidates, the second call failing; element 0 of the
fan-out is unchanged, the failed candidate gets the default score, and the
batch succeeds. -/
theorem claim4_witness :
    analyzeCandidateJobMatch sampleResume "c2" (.error ()) =
      { candidateId := "c2"
        name := sampleResume.name
        email := sampleResume.email
        score := 50
        matchBreakdown :=
          { skillsMatch := 50, experienceMatch := 50
            educationMatch := 50, overallFit := 50 }
        strengths := ["Unable to analyze"]
        weaknesses := ["Analysis failed"]
        recommendation :=
          "Manual review recommended - automated analysis failed" } ∧
    (analyzeAll [⟨"c1", sampleResume⟩, ⟨"c2", sampleResume⟩]
        (fun _ => .ok rawNone) 0)[0]? =
      (analyzeAll [⟨"c1", sampleResume⟩, ⟨"c2", sampleResume⟩]
        (fun j => if j = 1 then .error () else .ok rawNone) 0)[0]? ∧
    isOkResponse
      (jobMatchPOST
        ⟨some [⟨"c1", sampleResume⟩, ⟨"c2", sampleResume⟩],
          some "Engineer", none⟩
        (fun j => if j = 1 then .error () else .ok rawNone)
        (.error ())).1 = true :=
  ⟨claim4_per_candidate_failure_isolation.1 sampleResume "c2",
   claim4_per_candidate_failure_isolation.2.1
     [⟨"c1", sampleResume⟩, ⟨"c2", sampleResume⟩]
     (fun _ => .ok rawNone)
     (fun j => if j = 1 then .error () else .ok rawNone) 1
     (fun j hj => by simp [hj]) 0 (by decide),
   claim4_per_candidate_failure_isolation.2.2
     [⟨"c1", sampleResume⟩, ⟨"c2", sampleResume⟩] "Engineer" none
     (fun j => if j = 1 then .error () else .ok rawNone) (.error ())
     (by simp) (by simp)⟩

/-- C6: when the pool-level insights call fails, the response still carries
the complete correctly ranked leaderboard and the same averageScore as with
a successful insights call, and only matchInsights is defaulted to empty
lists plus the single generic manual-review action. -/
theorem claim6_insights_failure_isolation (cands : List CandidateInput)
    (jd : String) (jt : Option String) (f : Nat → Except Unit RawAnalysis)
    (g : Except Unit RawInsights) (h1 : cands ≠ []) (h2 : jd ≠ "") :
    leaderboardOf (jobMatchPOST ⟨some cands, some jd, jt⟩ f (.error ())).1 =
      some (rankCandidates (analyzeAll cands f 0)) ∧
    leaderboardOf (jobMatchPOST ⟨some cands, some jd, jt⟩ f (.error ())).1 =
      leaderboardOf (jobMatchPOST ⟨some cands, some jd, jt⟩ f g).1 ∧
    averageScoreOf (jobMatchPOST ⟨some cands, some jd, jt⟩ f (.error ())).1 =
      averageScoreOf (jobMatchPOST ⟨some cands, some jd, jt⟩ f g).1 ∧
    insightsOf (jobMatchPOST ⟨some cands, some jd, jt⟩ f (.error ())).1 =
      some
        { bestSkillMatches := [], commonGaps := []
          recommendedActions := ["Manual review recommended"] } := by
  rw [jobMatchPOST_ok cands jd jt f (.error ()) h1 h2,
    jobMatchPOST_ok cands jd jt f g h1 h2]
  exact ⟨rfl, rfl, rfl, rfl⟩

/-- C6 witness: one candidate scored successfully, insights call failing
versus succeeding. -/
theorem claim6_witness :
    leaderboardOf
        (jobMatchPOST ⟨some [⟨"c1", sampleResume⟩], some "Engineer", none⟩
          (fun _ => .ok rawNone) (.error ())).1 =
      some (rankCandidates
        (analyzeAll [⟨"c1", sampleResume⟩] (fun _ => .ok rawNone) 0)) ∧
    leaderboardOf
        (jobMatchPOST ⟨some [⟨"c1", sampleResume⟩], some "Engineer", none⟩
          (fun _ => .ok rawNone) (.error ())).1 =
      leaderboardOf
        (jobMatchPOST ⟨some [⟨"c1", sampleResume⟩], some "Engineer", none⟩
          (fun _ => .ok rawNone)
          (.ok ⟨some ["ts"], some ["go"], some ["hire"]⟩)).1 ∧
    averageScoreOf
        (jobMatchPOST ⟨some [⟨"c1", sampleResume⟩], some "Engineer", none⟩
          (fun _ => .ok rawNone) (.error ())).1 =
      averageScoreOf
        (jobMatchPOST ⟨some [⟨"c1", sampleResume⟩], some "Engineer", none⟩
          (fun _ => .ok rawNone)
          (.ok ⟨some ["ts"], some ["go"], some ["hire"]⟩)).1 ∧
    insightsOf
        (jobMatchPOST ⟨some [⟨"c1", sampleResume⟩], some "Engineer", none⟩
          (fun _ => .ok rawNone) (.error ())).1 =
      some
        { bestSkillMatches := [], commonGaps := []
          recommendedActions := ["Manual review recommended"] } :=
  claim6_insights_failure_isolation [⟨"c1", sampleResume⟩] "Engineer" none
    (fun _ => .ok rawNone) (.ok ⟨some ["ts"], some ["go"], some ["hire"]⟩)
    (by simp) (by simp)

theorem append_ne_empty_left (s t : String) (hs : s.data ≠ []) :
    s ++ t ≠ "" := by
  intro h
  have h2 := congrArg String.data h
  rw [String.data_append] at h2
  have h3 : ("" : String).data = [] := rfl
  rw [h3] at h2
  exact hs (List.append_eq_nil.mp h2).1

theorem extractTextWithGeminiOCR_error_ne_empty
    (ocr : Except String String) (e : String)
    (h : extractTextWithGeminiOCR ocr = .error e) : e ≠ "" := by
  cases ocr with
  | ok t =>
    by_cases ht : strTrim t = ""
    · simp only [extractTextWithGeminiOCR, if_pos ht] at h
      injection h with h2
      rw [← h2]
      exact append_ne_empty_left _ _ (by decide)
    · simp only [extractTextWithGeminiOCR, if_neg ht] at h
      cases h
  | error e0 =>
    simp only [extractTextWithGeminiOCR] at h
    injection h with h2
    rw [← h2]
    exact append_ne_empty_left _ _ (by decide)

theorem extractTextFromFile_error_ne_empty (name : String)
    (ocr : Except String String) (mam : Except Unit String) (e : String)
    (h : extractTextFromFile name ocr mam = .error e) : e ≠ "" := by
  unfold extractTextFromFile at h
  by_cases h1 : ocrExtensions.contains (strToLower (jsExtname name)) = true
  · rw [if_pos h1] at h
    exact extractTextWithGeminiOCR_error_ne_empty ocr e h
  · rw [if_neg h1] at h
    by_cases h2 : strToLower (jsExtname name) = ".docx"
    · rw [if_pos h2] at h
      cases mam with
      | ok v => cases h
      | error u => exact extractTextWithGeminiOCR_error_ne_empty ocr e h
    · rw [if_neg h2] at h
      by_cases h3 : strToLower (jsExtname name) = ".doc"
      · rw [if_pos h3] at h
        exact extractTextWithGeminiOCR_error_ne_empty ocr e h
      · rw [if_neg h3] at h
        injection h with h4
        rw [← h4]
        exact append_ne_empty_left _ _ (by decide)

theorem processResumeFile_error_ne_empty (filePath originalName : String)
    (ocr : Except String String) (mam : Except Unit String)
    (parse : Except Unit RawParsed) (fileSys : List String) (e : String)
    (h : (processResumeFile filePath originalName ocr mam parse
      fileSys).1 = .error e) : e ≠ "" := by
  unfold processResumeFile at h
  cases hx : extractTextFromFile originalName ocr mam with
  | error e0 =>
    rw [hx] at h
    simp only [] at h
    injection h with h2
    rw [← h2]
    exact extractTextFromFile_error_ne_empty originalName ocr mam e0 hx
  | ok t =>
    rw [hx] at h
    simp only [] at h
    by_cases ht : strTrim t = ""
    · rw [if_pos ht] at h
      injection h with h2
      rw [← h2]
      decide
    · rw [if_neg ht] at h
      cases parse with
      | ok p => cases h
      | error u =>
        simp only [parseResumeWithGemini] at h
        injection h with h2
        rw [← h2]
        decide

theorem processUploadedFile_fileSys (fid fname : String) (o : FileOracle)
    (fileSys : List String) :
    (processUploadedFile fid fname o fileSys).2 = fileSys := by
  show ((fid ++ "-" ++ fname) :: fileSys).erase (fid ++ "-" ++ fname) =
    fileSys
  exact List.erase_cons_head _ _

/-- C7: the temporary on-disk copy of an uploaded file is removed again
whatever the processing outcome; a throw during extraction or parsing makes
that file's ProcessingResult failed with a non-empty error string; and the
batch upload response is still a success. -/
theorem claim7_temp_file_cleanup (fid fname : String) (o : FileOracle)
    (fileSys : List String)
    (hfresh : (fid ++ "-" ++ fname) ∉ fileSys) :
    ((fid ++ "-" ++ fname) ∉ (processUploadedFile fid fname o fileSys).2) ∧
    (∀ e, (processResumeFile (fid ++ "-" ++ fname) fname o.ocr o.mammoth
        o.parsed ((fid ++ "-" ++ fname) :: fileSys)).1 = .error e →
      (processUploadedFile fid fname o fileSys).1.status = .failed ∧
      (processUploadedFile fid fname o fileSys).1.error = some e ∧
      e ≠ "") ∧
    (∀ (files : List (String × String × FileOracle)) (fs0 : List String),
      files ≠ [] → isOkUpload (uploadPOST files fs0).1 = true) := by
  refine ⟨?_, ?_, ?_⟩
  · rw [processUploadedFile_fileSys]
    exact hfresh
  · intro e he
    refine ⟨?_, ?_,
      processResumeFile_error_ne_empty _ _ _ _ _ _ _ he⟩ <;>
      · simp only [processUploadedFile]
        rw [he]
  · intro files fs0 hne
    unfold uploadPOST
    rw [if_neg (by simpa [List.length_eq_zero] using hne)]
    rfl

/-- A file oracle whose extraction call throws. -/
def failOracle : FileOracle :=
  { ocr := .error "boom", mammoth := .error (), parsed := .error () }

/-- C7 witness: one 2 MB PDF named resume.pdf whose OCR call throws. -/
theorem claim7_witness :
    ("f1" ++ "-" ++ "resume.pdf" ∉
      (processUploadedFile "f1" "resume.pdf" failOracle []).2) ∧
    ((processUploadedFile "f1" "resume.pdf" failOracle []).1.status =
        .failed ∧
      (processUploadedFile "f1" "resume.pdf" failOracle []).1.error =
        some "Failed to extract text using OCR: boom" ∧
      "Failed to extract text using OCR: boom" ≠ "") ∧
    isOkUpload
      (uploadPOST [("f1", "resume.pdf", failOracle)] []).1 = true := by
  have h := claim7_temp_file_cleanup "f1" "resume.pdf" failOracle []
    (by simp)
  exact ⟨h.1, h.2.1 "Failed to extract text using OCR: boom" rfl,
    h.2.2 [("f1", "resume.pdf", failOracle)] [] (by simp)⟩

/-- C8: a successful structured parse always yields genuine lists for
skills, experience and education (empty when the model omitted the field
or returned a non-array) and empty strings for the string fields the model
omitted. -/
theorem claim8_parser_normalization (p : RawParsed) :
    parseResumeWithGemini (.ok p) = .ok (normalizeParsed p) ∧
    ((p.skills = RawArr.absent ∨ p.skills = RawArr.notArray) →
      (normalizeParsed p).skills = []) ∧
    (∀ l, p.skills = RawArr.arr l → (normalizeParsed p).skills = l) ∧
    ((p.experience = RawArr.absent ∨ p.experience = RawArr.notArray) →
      (normalizeParsed p).experience = []) ∧
    (∀ l, p.experience = RawArr.arr l →
      (normalizeParsed p).experience = l) ∧
    ((p.education = RawArr.absent ∨ p.education = RawArr.notArray) →
      (normalizeParsed p).education = []) ∧
    (∀ l, p.education = RawArr.arr l → (normalizeParsed p).education = l) ∧
    (p.name = none → (normalizeParsed p).name = "") ∧
    (p.email = none → (normalizeParsed p).email = "") ∧
    (p.phone = none → (normalizeParsed p).phone = "") ∧
    (p.summary = none → (normalizeParsed p).summary = "") ∧
    (p.linkedin_url = none → (normalizeParsed p).linkedin_url = "") ∧
    (p.github_url = none → (normalizeParsed p).github_url = "") := by
  refine ⟨rfl, ?_, ?_, ?_, ?_, ?_, ?_, ?_, ?_, ?_, ?_, ?_, ?_⟩
  · intro h; rcases h with h | h <;> simp [normalizeParsed, coerceArr, h]
  · intro l h; simp [normalizeParsed, coerceArr, h]
  · intro h; rcases h with h | h <;> simp [normalizeParsed, coerceArr, h]
  · intro l h; simp [normalizeParsed, coerceArr, h]
  · intro h; rcases h with h | h <;> simp [normalizeParsed, coerceArr, h]
  · intro l h; simp [normalizeParsed, coerceArr, h]
  · intro h; simp [normalizeParsed, jsOrString, h]
  · intro h; simp [normalizeParsed, jsOrString, h]
  · intro h; simp [normalizeParsed, jsOrString, h]
  · intro h; simp [normalizeParsed, jsOrString, h]
  · intro h; simp [normalizeParsed, jsOrString, h]
  · intro h; simp [normalizeParsed, jsOrString, h]

/-- A model reply missing every string field, with skills present but not
an array, experience missing, and education an empty array. -/
def rawParsedDegenerate : RawParsed :=
  { name := none, email := none, phone := none, linkedin_url := none
    github_url := none, summary := none, skills := RawArr.notArray
    experience := RawArr.absent, education := RawArr.arr [] }

/-- C8 witness: the degenerate parsed reply is fully normalized. -/
theorem claim8_witness :
    (normalizeParsed rawParsedDegenerate).skills = [] ∧
    (normalizeParsed rawParsedDegenerate).experience = [] ∧
    (normalizeParsed rawParsedDegenerate).education = [] ∧
    (normalizeParsed rawParsedDegenerate).name = "" ∧
    (normalizeParsed rawParsedDegenerate).summary = "" :=
  ⟨(claim8_parser_normalization rawParsedDegenerate).2.1 (Or.inr rfl),
   (claim8_parser_normalization rawParsedDegenerate).2.2.2.1 (Or.inl rfl),
   (claim8_parser_normalization rawParsedDegenerate).2.2.2.2.2.2.1 [] rfl,
   (claim8_parser_normalization rawParsedDegenerate).2.2.2.2.2.2.2.1 rfl,
   (claim8_parser_normalization
     rawParsedDegenerate).2.2.2.2.2.2.2.2.2.2.1 rfl⟩

/-- C9: for a file passing the size and extension checks, an empty declared
MIME type does not fail validation, while a non-matching non-empty MIME
type makes validateResumeFile return invalid. -/
theorem claim9_mime_advisory (file : JsFile)
    (hsize : file.size ≤ 10 * 1024 * 1024)
    (hext : allowedExtensions.contains (fileExtensionOf file.name) = true) :
    (file.type = "" →
      validateResumeFile file = { valid := true, error := none }) ∧
    (allowedTypes.contains file.type = false → file.type ≠ "" →
      validateResumeFile file =
        { valid := false, error := some "Invalid file type" }) := by
  have hs : ¬ (file.size > 10 * 1024 * 1024) := by omega
  constructor
  · intro ht
    show (if file.size > 10 * 1024 * 1024 then _ else _) = _
    rw [if_neg hs, if_neg (by rw [hext]; simp),
      if_neg (by simp [ht])]
  · intro hty htne
    show (if file.size > 10 * 1024 * 1024 then _ else _) = _
    rw [if_neg hs, if_neg (by rw [hext]; simp), if_pos ⟨hty, htne⟩]

/-- C9 witness: a small a.pdf with empty MIME passes, with text/plain it
is rejected as an invalid file type. -/
theorem claim9_witness :
    validateResumeFile { name := "a.pdf", size := 0, type := "" } =
      { valid := true, error := none } ∧
    validateResumeFile { name := "a.pdf", size := 0, type := "text/plain" } =
      { valid := false, error := some "Invalid file type" } :=
  ⟨(claim9_mime_advisory { name := "a.pdf", size := 0, type := "" }
      (by decide) (by decide)).1 rfl,
   (claim9_mime_advisory { name := "a.pdf", size := 0, type := "text/plain" }
      (by decide) (by decide)).2 (by decide) (by decide)⟩

theorem toNat_ofNat_of_valid {n : Nat} (h : n.isValidChar) :
    (Char.ofNat n).toNat = n := by
  unfold Char.ofNat
  rw [dif_pos h]
  simp [Char.ofNatAux, Char.toNat, UInt32.toNat]

theorem toLower_eq_dot {c : Char} (h : c.toLower = '.') : c = '.' := by
  unfold Char.toLower at h
  by_cases hc : c.toNat ≥ 65 ∧ c.toNat ≤ 90
  · rw [if_pos hc] at h
    have h2 := congrArg Char.toNat h
    have hv : (c.toNat + 32).isValidChar := by
      constructor
      omega
    rw [toNat_ofNat_of_valid hv] at h2
    have h3 : ('.' : Char).toNat = 46 := by decide
    omega
  · rwa [if_neg hc] at h

/-- C10: a file whose name has no dot (and which passes the size check) is
rejected with the unsupported-file-type error, because lastIndexOf yields
-1, substring(-1) yields the whole lowercased name, and a dotless name can
never equal one of the dot-led allowed extensions. -/
theorem claim10_dotless_name_rejected (file : JsFile)
    (hd : ('.' : Char) ∉ file.name.data)
    (hsize : file.size ≤ 10 * 1024 * 1024) :
    fileExtensionOf file.name = ⟨file.name.data.map Char.toLower⟩ ∧
    validateResumeFile file =
      { valid := false
        error := some
          "Only PDF, DOC, DOCX, and image files (JPG, PNG, GIF, BMP, WebP) are supported" } := by
  have hidx : jsLastIndexOf '.' file.name.data = -1 := by
    unfold jsLastIndexOf
    have hnone : (file.name.data.reverse).findIdx?
        (fun x => x = '.') = none := by
      rw [List.findIdx?_eq_none_iff]
      intro x hx
      have hxm : x ∈ file.name.data := List.mem_reverse.mp hx
      simp only [decide_eq_false_iff_not]
      exact fun he => hd (he ▸ hxm)
    rw [hnone]
  have hext : fileExtensionOf file.name =
      ⟨file.name.data.map Char.toLower⟩ := by
    unfold fileExtensionOf jsSubstringFrom
    rw [hidx]
    rw [show ((-1 : Int)).toNat = 0 from rfl, List.drop_zero]
  refine ⟨hext, ?_⟩
  have hdot : ('.' : Char) ∉ file.name.data.map Char.toLower := by
    intro hm
    obtain ⟨c, hcm, hce⟩ := List.mem_map.mp hm
    exact hd (toLower_eq_dot hce ▸ hcm)
  have hnomem : allowedExtensions.contains (fileExtensionOf file.name) =
      false := by
    rw [hext]
    by_contra hc
    have hc2 : (⟨file.name.data.map Char.toLower⟩ : String) ∈
        allowedExtensions := by
      simpa using hc
    simp only [allowedExtensions, List.mem_cons, List.not_mem_nil,
      or_false] at hc2
    rcases hc2 with h | h | h | h | h | h | h | h | h <;>
    · apply hdot
      have h2 : file.name.data.map Char.toLower = _ :=
        congrArg String.data h
      rw [h2]
      decide
  have hs : ¬ (file.size > 10 * 1024 * 1024) := by omega
  show (if file.size > 10 * 1024 * 1024 then _ else _) = _
  rw [if_neg hs, if_pos hnomem]

/-- C10 witness: a dotless name is rejected with the unsupported-type
error and its computed extension is the whole lowercased name. -/
theorem claim10_witness :
    fileExtensionOf "Resume" = ⟨"Resume".data.map Char.toLower⟩ ∧
    validateResumeFile { name := "Resume", size := 100, type := "" } =
      { valid := false
        error := some
          "Only PDF, DOC, DOCX, and image files (JPG, PNG, GIF, BMP, WebP) are supported" } :=
  claim10_dotless_name_rejected
    { name := "Resume", size := 100, type := "" } (by decide) (by decide)

end HireAI
